import Mathlib

/-!
Verification development for the LOI ("Intimacy Ladder") multiplayer game
session engine.

The engine lives in PostgreSQL migrations (tables `game_rooms`,
`game_players`, `game_state`; RPC functions `advance_turn`,
`reroll_question`, `check_turn_timeout`, `reconnect_player`; trigger
functions `validate_game_start`, `initialize_game_state`,
`process_next_turn`, `set_turn_started_at`,
`cleanup_inactive_players_on_heartbeat`, `cleanup_old_rooms`).  This file
gives a shallow embedding of the latest version of each function
(migrations 007/009/010 supersede the earlier definitions of the same
names via CREATE OR REPLACE) and proves properties of the embedding.

Modelling conventions:
* Timestamps are `Int` epoch seconds; `NOW()` becomes an explicit `now`
  parameter.
* A room together with its players and its `game_state` row is one
  `Room` value.  The `players` list is kept in ascending `joined_at`
  order (the insertion order), so SQL reads with `ORDER BY joined_at`
  become plain list traversals.
* `random()` draws are an explicit stream `rand : List Nat`; the SQL
  `floor(random() * i + 1)` becomes `r % i + 1`.
* A plpgsql function with an `EXCEPTION WHEN OTHERS` handler returns an
  error value and leaves the state unchanged when a trigger raises;
  this is modelled by returning `.err` before applying any update.
* `player_order ->> idx` yields SQL NULL when `idx` is out of range and
  `NULL != x` is not true, so identity guards of the form
  `IF extracted != caller THEN error` only fire when the lookup
  succeeds and disagrees; the embedding reproduces this.
-/

namespace LOI

/-- Room status, `game_rooms.status` (CHECK constraint in 001_schema). -/
inductive Status where
  | lobby
  | playing
  | finished
deriving DecidableEq, Repr

/-- The `settings` JSONB of `game_rooms`; absent keys are `none` and the
readers apply the COALESCE defaults from the source. -/
structure Settings where
  startLevel : Option Int := none
  questionsPerLevel : Option Int := none
deriving DecidableEq, Repr

/-- One `game_players` row (001_schema plus the session columns added by
the reconnect migration in 009_dynamic_questions_per_level). -/
structure Player where
  playerId : String
  playerName : String := ""
  isHost : Bool := false
  joinedAt : Int := 0
  lastHeartbeat : Int := 0
  sessionToken : String := ""
  isDisconnected : Bool := false
  disconnectedAt : Option Int := none
deriving DecidableEq, Repr

/-- One `game_state` row (001_schema, with the columns added by
migrations 007, 009 and 010).  `rerollsUsed` is the JSONB object
`{ "level": [playerId, ...] }` as an association list keyed by level. -/
structure GameState where
  currentLevel : Int
  playerOrder : List String
  currentAskerIndex : Nat := 0
  currentAnswererIndex : Nat := 1
  currentQuestion : Option String := none
  isCustomQuestion : Bool := false
  questionCount : Int := 0
  askedQuestions : List String := []
  rerollsUsed : List (Int × List String) := []
  turnStartedAt : Option Int := none
  turnTimeoutSeconds : Int := 60
deriving DecidableEq, Repr

/-- A `game_rooms` row together with its players (ascending `joined_at`)
and its optional `game_state` row. -/
structure Room where
  roomCode : String
  hostId : String
  status : Status
  settings : Settings := {}
  createdAt : Int := 0
  players : List Player := []
  state : Option GameState := none
deriving DecidableEq, Repr

/-- Result of an RPC returning a JSONB `success`/`error` object: either
the updated room or the error message with the room unchanged. -/
inductive Res where
  | ok (room : Room)
  | err (msg : String)
deriving DecidableEq, Repr

/-- Swap two positions of a list (no-op when either is out of range),
used by the Fisher–Yates loop of `shuffle_player_ids`. -/
def listSwap (l : List α) (i j : Nat) : List α :=
  match l[i]?, l[j]? with
  | some a, some b => (l.set i b).set j a
  | _, _ => l

/-- The Fisher–Yates loop of `shuffle_player_ids`
(007_question_selection_flow): `i` counts down from the array length to
2, `j := floor(random() * i + 1)` is drawn from the random stream as
`r % i + 1`, and the 1-based positions `i` and `j` are swapped. -/
def shuffleAux (rand : List Nat) (l : List α) : Nat → List α
  | 0 => l
  | 1 => l
  | n + 2 =>
    let r := rand.headD 0
    let j := r % (n + 2) + 1
    shuffleAux rand.tail (listSwap l (n + 1) (j - 1)) (n + 1)

/-- `shuffle_player_ids` (007_question_selection_flow): Fisher–Yates
shuffle over an explicit stream of random draws. -/
def shuffle_player_ids (rand : List Nat) (l : List α) : List α :=
  shuffleAux rand l l.length

/-- The BEFORE UPDATE trigger `set_turn_started_at`
(009_dynamic_questions_per_level): stamps `turn_started_at := NOW()`
when the question was just cleared or the asker index changed. -/
def set_turn_started_at (now : Int) (old new : GameState) : GameState :=
  if (new.currentQuestion.isNone && old.currentQuestion.isSome)
      || new.currentAskerIndex != old.currentAskerIndex then
    { new with turnStartedAt := some now }
  else
    new

/-- The AFTER UPDATE trigger `process_next_turn`
(007_question_selection_flow version, attached as an AFTER trigger by
006_fix_level_transitions): when the updated row's `question_count`
reached `settings.questionsPerLevel` (COALESCE default 3) it either
decrements the level — regenerating `player_order` from the current
players, resetting the indices to 0/1 and the count to 0, which fires
the triggers once more — or, at level 1, marks the room finished.
`fuel` bounds the (in practice at most one-deep) trigger recursion. -/
def processNextTurnAux (now : Int) (room : Room) :
    Nat → List Nat → GameState → Room
  | 0, _, st => { room with state := some st }
  | fuel + 1, rand, st =>
    let qpl := room.settings.questionsPerLevel.getD 3
    if st.questionCount ≥ qpl then
      if st.currentLevel > 1 then
        let ids := room.players.map (·.playerId)
        let shuffled := shuffle_player_ids rand ids
        let st1 : GameState :=
          { st with
            currentLevel := st.currentLevel - 1
            questionCount := 0
            playerOrder := shuffled
            currentAskerIndex := 0
            currentAnswererIndex := 1
            currentQuestion := none
            isCustomQuestion := false }
        let st2 := set_turn_started_at now st st1
        processNextTurnAux now room fuel (rand.drop (ids.length - 1)) st2
      else
        { room with status := .finished, state := some st }
    else
      { room with state := some st }

/-- Appending the optional answered question to `asked_questions`
(`IF current_question_param IS NOT NULL THEN ... || ...` in
`advance_turn`). -/
def jsonbAppend (arr : List String) (q : Option String) : List String :=
  match q with
  | some s => arr ++ [s]
  | none => arr

/-- The identity guard `IF extracted_id != caller THEN error`: true only
when the `player_order ->> idx` lookup succeeds and disagrees (SQL NULL
comparison is not true). -/
def idGuardFails (order : List String) (idx : Nat) (caller : String) : Bool :=
  match order[idx]? with
  | some a => a != caller
  | none => false

/-- RPC `advance_turn` (007_question_selection_flow, the latest
definition): verifies the caller is the current answerer, appends the
answered question, rotates answerer → asker and advances the answerer
modulo the player count, increments `question_count`, clears the
question, and lets the UPDATE fire `validate_turn_advancement`
(002_game_logic: room must be `playing`), `set_turn_started_at` and the
AFTER trigger `process_next_turn`.  Any raise is caught by the
function's EXCEPTION handler, which reports the error with no state
change. -/
def advance_turn (now : Int) (rand : List Nat) (room : Room)
    (playerId : String) (questionParam : Option String) : Res :=
  match room.state with
  | none => .err "Game state not found"
  | some st =>
    let playerCount := st.playerOrder.length
    if idGuardFails st.playerOrder st.currentAnswererIndex playerId then
      .err "Only the current answerer can advance the turn"
    else if playerCount = 0 then
      .err "division by zero"
    else if room.status ≠ .playing then
      .err "Game is not currently playing"
    else
      let st1 : GameState :=
        { st with
          questionCount := st.questionCount + 1
          askedQuestions := jsonbAppend st.askedQuestions questionParam
          currentAskerIndex := st.currentAnswererIndex
          currentAnswererIndex := (st.currentAnswererIndex + 1) % playerCount
          currentQuestion := none
          isCustomQuestion := false }
      let st2 := set_turn_started_at now st st1
      .ok (processNextTurnAux now room (st.currentLevel.toNat + 1) rand st2)

/-- Lookup of `rerolls_used -> level` in the per-level JSONB object. -/
def rerollLookup (m : List (Int × List String)) (k : Int) :
    Option (List String) :=
  (m.find? (fun p => p.1 = k)).map (·.2)

/-- `jsonb_set(rerolls_used, ARRAY[level], v, true)`: replace the value
at key `k`, or add the key when absent (JSONB object keys are unique,
so replacing the first occurrence is the object update). -/
def rerollSet : List (Int × List String) → Int → List String →
    List (Int × List String)
  | [], k, v => [(k, v)]
  | x :: xs, k, v =>
    if x.1 = k then (k, v) :: xs else x :: rerollSet xs k v

/-- RPC `reroll_question` (010_add_question_reroll, the per-player
variant matching the deployed frontend): only the current answerer may
reroll, a question must be set, and the caller must not already appear
in `rerolls_used -> current_level` (`? key AND -> key @> to_jsonb(id)`);
on success the caller is appended to that per-level array and the
frontend draws the replacement question.  The UPDATE fires
`validate_turn_advancement`, `set_turn_started_at` and
`process_next_turn` as for `advance_turn`. -/
def reroll_question (now : Int) (rand : List Nat) (room : Room)
    (playerId : String) : Res :=
  match room.state with
  | none => .err "Game state not found"
  | some st =>
    if idGuardFails st.playerOrder st.currentAnswererIndex playerId then
      .err "Only the answerer can reroll the question"
    else if st.currentQuestion.isNone then
      .err "No question to reroll"
    else
      let key := st.currentLevel
      let entry := rerollLookup st.rerollsUsed key
      let hasUsed := entry.isSome && (entry.getD []).contains playerId
      if hasUsed then
        .err "You have already used your reroll for this level"
      else if room.status ≠ .playing then
        .err "Game is not currently playing"
      else
        let st1 : GameState :=
          { st with
            rerollsUsed := rerollSet st.rerollsUsed key
              ((entry.getD []) ++ [playerId]) }
        let st2 := set_turn_started_at now st st1
        .ok (processNextTurnAux now room (st.currentLevel.toNat + 1) rand st2)

/-- Result object of `check_turn_timeout`: the JSONB fields the RPC
reports (absent keys are `none`). -/
structure TimeoutReport where
  success : Bool
  error : Option String := none
  timedOut : Option Bool := none
  skipped : Option Bool := none
deriving DecidableEq, Repr

/-- RPC `check_turn_timeout` (009_dynamic_questions_per_level): computes
the turn age from `turn_started_at`; below `turn_timeout_seconds` it
reports not timed out.  Over the threshold it looks up the current
asker: a missing or connected asker yields a timed-out-but-not-skipped
report with no mutation; a disconnected asker is skipped — the asker
index becomes `answerer % n`, the answerer `(answerer + 1) % n`, the
question is cleared and the turn timer restarted.  The function has no
EXCEPTION handler, so a trigger raise (room not `playing`) surfaces as
an error with the update rolled back. -/
def check_turn_timeout (now : Int) (rand : List Nat) (room : Room) :
    TimeoutReport × Room :=
  match room.state with
  | none => ({ success := false, error := some "GAME_NOT_FOUND" }, room)
  | some st =>
    match st.turnStartedAt with
    | none => ({ success := false, error := some "NO_ACTIVE_TURN" }, room)
    | some t0 =>
      let turnAge := now - t0
      if turnAge < st.turnTimeoutSeconds then
        ({ success := true, timedOut := some false }, room)
      else
        let askerId := st.playerOrder[st.currentAskerIndex]?
        match room.players.find? (fun p => askerId = some p.playerId) with
        | none =>
          ({ success := true, timedOut := some true, skipped := some false },
            room)
        | some asker =>
          if asker.isDisconnected = false then
            ({ success := true, timedOut := some true, skipped := some false },
              room)
          else
            let n := st.playerOrder.length
            if n = 0 then
              ({ success := false, error := some "division by zero" }, room)
            else if room.status ≠ .playing then
              ({ success := false,
                 error := some "Game is not currently playing" }, room)
            else
              let st1 : GameState :=
                { st with
                  currentAskerIndex := st.currentAnswererIndex % n
                  currentAnswererIndex := (st.currentAnswererIndex + 1) % n
                  currentQuestion := none
                  isCustomQuestion := false
                  turnStartedAt := some now }
              let st2 := set_turn_started_at now st st1
              ({ success := true, timedOut := some true, skipped := some true },
                processNextTurnAux now room (st.currentLevel.toNat + 1) rand st2)

/-- First pass of `cleanup_inactive_players_on_heartbeat`
(009_dynamic_questions_per_level): players silent for over 120 seconds
and not yet flagged are marked disconnected. -/
def markStale (now : Int) (players : List Player) : List Player :=
  players.map (fun p =>
    if p.lastHeartbeat < now - 120 && !p.isDisconnected then
      { p with isDisconnected := true, disconnectedAt := some now }
    else p)

/-- Trigger function `cleanup_inactive_players_on_heartbeat`
(009_dynamic_questions_per_level, the latest definition): marks stale
players disconnected; if some host is now disconnected, transfers the
host role to the earliest-joined connected player, or — when no
connected player remains — deletes the room (`none`). -/
def cleanup_inactive_players_on_heartbeat (now : Int) (room : Room) :
    Option Room :=
  let ps := markStale now room.players
  match ps.find? (fun p => p.isHost && p.isDisconnected) with
  | none => some { room with players := ps }
  | some removedHost =>
    let active := ps.filter (fun p => !p.isDisconnected)
    match active.head? with
    | some newHost =>
      let ps1 := ps.map (fun p =>
        if p.playerId = removedHost.playerId then
          { p with isHost := false } else p)
      let ps2 := ps1.map (fun p =>
        if p.playerId = newHost.playerId then
          { p with isHost := true } else p)
      some { room with players := ps2, hostId := newHost.playerId }
    | none => none

/-- The client heartbeat (useGameState hook): sets the player's
`last_heartbeat := NOW()`; the AFTER UPDATE trigger
`cleanup_inactive_players_trigger` (002_game_logic) fires
`cleanup_inactive_players_on_heartbeat` when the heartbeat increased.
`none` means the room row was deleted by the trigger. -/
def player_heartbeat (now : Int) (room : Room) (playerId : String) :
    Option Room :=
  match room.players.find? (fun p => p.playerId = playerId) with
  | none => some room
  | some p0 =>
    let ps := room.players.map (fun p =>
      if p.playerId = playerId then { p with lastHeartbeat := now } else p)
    let room1 := { room with players := ps }
    if p0.lastHeartbeat < now then
      cleanup_inactive_players_on_heartbeat now room1
    else
      some room1

/-- Result of `reconnect_player`. -/
inductive ReconnectRes where
  | invalidSession
  | roomDeleted
  | ok (room : Room)
deriving DecidableEq, Repr

/-- The row update of `reconnect_player`: clear the disconnected flag
and timestamp and refresh the heartbeat. -/
def reconnectMark (now : Int) (p : Player) : Player :=
  { p with isDisconnected := false, disconnectedAt := none,
           lastHeartbeat := now }

/-- RPC `reconnect_player` (009_dynamic_questions_per_level): validates
the exact `(roomCode, playerId, sessionToken)` triple (the room code is
implicit in `room`); on a match it clears the disconnected flag,
refreshes the heartbeat — which fires the heartbeat cleanup trigger —
and returns the updated room; otherwise it reports INVALID_SESSION with
no mutation. -/
def reconnect_player (now : Int) (room : Room) (playerId : String)
    (sessionToken : String) : ReconnectRes :=
  match room.players.find? (fun p =>
      p.playerId = playerId && p.sessionToken = sessionToken) with
  | none => .invalidSession
  | some matched =>
    let ps := room.players.map (fun p =>
      if p.playerId = playerId then reconnectMark now p else p)
    let room1 := { room with players := ps }
    if matched.lastHeartbeat < now then
      match cleanup_inactive_players_on_heartbeat now room1 with
      | some r2 => .ok r2
      | none => .roomDeleted
    else
      .ok room1

/-- `cleanup_old_rooms` (002_game_logic, the latest definition, matching
the 004 cleanup migration): deletes every room created more than 2 hours
(7200 s) ago, then deletes every room with no players.  No status is
consulted. -/
def cleanup_old_rooms (now : Int) (rooms : List Room) : List Room :=
  let afterAge := rooms.filter (fun r => !(r.createdAt < now - 7200 : Bool))
  afterAge.filter (fun r => !r.players.isEmpty)

/-- Attempting to start the game: the client updates
`game_rooms.status` to `playing` guarded by `host_id = playerId` (the
deprecated start-game edge function performs the same host and lobby
checks explicitly); the BEFORE trigger `validate_game_start`
(009_dynamic_questions_per_level, the latest definition) rejects fewer
than 2 players and overwrites `settings.questionsPerLevel` with the
player count; the AFTER trigger `initialize_game_state`
(007_question_selection_flow) then shuffles the roster into
`player_order`, takes the start level from the settings (default 5) and
creates — or, on conflict, resets — the `game_state` row with asker 0,
answerer 1, no question, zero counts. -/
def start_game (now : Int) (rand : List Nat) (room : Room)
    (playerId : String) : Res :=
  if room.hostId ≠ playerId then
    .err "Only the host can start the game"
  else if room.status ≠ .lobby then
    .err "Game has already started or finished"
  else
    let playerCount := room.players.length
    if playerCount < 2 then
      .err "Need at least 2 players to start"
    else
      let settings1 :=
        { room.settings with questionsPerLevel := some (playerCount : Int) }
      let ids := room.players.map (·.playerId)
      let shuffled := shuffle_player_ids rand ids
      let startLevel := settings1.startLevel.getD 5
      let fresh : GameState :=
        { currentLevel := startLevel
          playerOrder := shuffled
          currentAskerIndex := 0
          currentAnswererIndex := 1
          currentQuestion := none
          isCustomQuestion := false
          questionCount := 0
          askedQuestions := []
          rerollsUsed := []
          turnStartedAt := none
          turnTimeoutSeconds := 60 }
      let newState :=
        match room.state with
        | none => fresh
        | some old =>
          set_turn_started_at now old
            { fresh with
              rerollsUsed := old.rerollsUsed
              turnStartedAt := old.turnStartedAt
              turnTimeoutSeconds := old.turnTimeoutSeconds }
      .ok { room with
            status := .playing
            settings := settings1
            state := some newState }

/-- One scripted turn: the current answerer (looked up from the state)
calls `advance_turn` with some answered question.  Drives the
termination argument for a game played to completion. -/
def autoStep (now : Int) (rand : List Nat) (q : String) (room : Room) : Res :=
  match room.state with
  | none => .err "Game state not found"
  | some st =>
    advance_turn now rand room
      (st.playerOrder.getD st.currentAnswererIndex "") (some q)

/-- Iterate `autoStep` with per-step random streams and questions; a
failing step leaves the room unchanged. -/
def runAuto (now : Int) (rands : Nat → List Nat) (qs : Nat → String)
    (room : Room) : Nat → Room
  | 0 => room
  | k + 1 =>
    let r := runAuto now rands qs room k
    match autoStep now (rands k) (qs k) r with
    | .ok r2 => r2
    | .err _ => r

/-! ### Concrete fixtures used by the witnesses and counterexamples -/

/-- A two-player lobby room: host "A" joined first, "B" second. -/
def lobbyFixture : Room :=
  { roomCode := "ABCD", hostId := "A", status := .lobby,
    settings := { startLevel := some 5 }, createdAt := 0,
    players :=
      [ { playerId := "A", playerName := "Alice", isHost := true,
          joinedAt := 0, lastHeartbeat := 0, sessionToken := "tokA" },
        { playerId := "B", playerName := "Bob", isHost := false,
          joinedAt := 1, lastHeartbeat := 0, sessionToken := "tokB" } ],
    state := none }

/-- The room after the host starts the two-player game. -/
def startedFixture : Room :=
  match start_game 100 [0] lobbyFixture "A" with
  | .ok r => r
  | .err _ => lobbyFixture

/-- A mid-game room: "B" is the current answerer, a question is set. -/
def midGameFixture : Room :=
  { lobbyFixture with
    status := .playing
    settings := { startLevel := some 5, questionsPerLevel := some 2 }
    state := some
      { currentLevel := 5
        playerOrder := ["A", "B"]
        currentAskerIndex := 0
        currentAnswererIndex := 1
        currentQuestion := some "What matters most to you?"
        questionCount := 0
        turnStartedAt := some 100 } }

/-- `midGameFixture` after the answerer "B" advances the turn. -/
def midGameAdvanced : Room :=
  match advance_turn 200 [] midGameFixture "B"
      (some "What matters most to you?") with
  | .ok r => r
  | .err _ => midGameFixture

/-- A mid-game room with no question set ("B" still the answerer). -/
def noQuestionFixture : Room :=
  { midGameFixture with
    state := some
      { currentLevel := 5
        playerOrder := ["A", "B"]
        currentAskerIndex := 0
        currentAnswererIndex := 1
        currentQuestion := none
        questionCount := 0
        turnStartedAt := some 100 } }

/-- Result of the answerer advancing the turn with no question set. -/
def noQuestionAdvanced : Room :=
  match advance_turn 200 [] noQuestionFixture "B" none with
  | .ok r => r
  | .err _ => noQuestionFixture

/-- A room in which "B" has been silent for over 120 seconds while still
flagged connected. -/
def staleFixture : Room :=
  { midGameFixture with
    players :=
      [ { playerId := "A", playerName := "Alice", isHost := true,
          joinedAt := 0, lastHeartbeat := 280, sessionToken := "tokA" },
        { playerId := "B", playerName := "Bob", isHost := false,
          joinedAt := 1, lastHeartbeat := 0, sessionToken := "tokB" } ] }

/-- `staleFixture` after "A" heartbeats at time 300. -/
def staleAfterHeartbeat : Room :=
  (player_heartbeat 300 staleFixture "A").getD staleFixture

/-- A playing room, two hours and one second old, with a player. -/
def agedPlayingFixture : Room :=
  { midGameFixture with createdAt := 0 }

/-- A mid-game room whose asker "A" is disconnected and whose turn timer
expired at time 100 + 60. -/
def timeoutFixture : Room :=
  { midGameFixture with
    players :=
      [ { playerId := "A", playerName := "Alice", isHost := true,
          joinedAt := 0, lastHeartbeat := 0, sessionToken := "tokA",
          isDisconnected := true, disconnectedAt := some 150 },
        { playerId := "B", playerName := "Bob", isHost := false,
          joinedAt := 1, lastHeartbeat := 170, sessionToken := "tokB" } ],
    state := some
      { currentLevel := 5
        playerOrder := ["A", "B"]
        currentAskerIndex := 0
        currentAnswererIndex := 1
        currentQuestion := none
        questionCount := 0
        turnStartedAt := some 100 } }

/-- A mid-game room where "B" disconnected and wants to reconnect. -/
def reconnectFixture : Room :=
  { midGameFixture with
    players :=
      [ { playerId := "A", playerName := "Alice", isHost := true,
          joinedAt := 0, lastHeartbeat := 280, sessionToken := "tokA" },
        { playerId := "B", playerName := "Bob", isHost := false,
          joinedAt := 1, lastHeartbeat := 0, sessionToken := "tokB",
          isDisconnected := true, disconnectedAt := some 150 } ] }

/-- `reconnectFixture` after "B" reconnects with the right token. -/
def reconnectedRoom : Room :=
  match reconnect_player 300 reconnectFixture "B" "tokB" with
  | .ok r => r
  | _ => reconnectFixture

/-- A mid-game room one question away from a level change, "A" already
recorded as having rerolled at the current level, "B" the answerer. -/
def rerollFixture : Room :=
  { midGameFixture with
    state := some
      { currentLevel := 5
        playerOrder := ["A", "B"]
        currentAskerIndex := 0
        currentAnswererIndex := 1
        currentQuestion := some "What do you value?"
        questionCount := 1
        rerollsUsed := [(5, ["A"])]
        turnStartedAt := some 100 } }

/-- `rerollFixture` after the answerer "B" advances with no question
parameter, completing the level (count reaches 2 = questionsPerLevel). -/
def rerollAdvanced : Room :=
  match advance_turn 200 [] rerollFixture "B" none with
  | .ok r => r
  | .err _ => rerollFixture

/-- The turn state of `rerollAdvanced`. -/
def rerollAdvancedState : GameState :=
  rerollAdvanced.state.getD { currentLevel := 0, playerOrder := [] }

/-- Invariant carried through a scripted two-player game: the room is
playing with `questionsPerLevel = 2`, two players, a two-entry player
order and an in-range answerer index at the given level and count. -/
def TwoPlayerInv (r : Room) (lvl cnt : Int) : Prop :=
  r.status = .playing ∧
  r.settings.questionsPerLevel = some 2 ∧
  r.players.length = 2 ∧
  ∃ st, r.state = some st ∧
    st.currentLevel = lvl ∧
    st.questionCount = cnt ∧
    st.playerOrder.length = 2 ∧
    st.currentAnswererIndex < 2

/-! ### Helper lemmas -/

theorem listSwap_length (l : List α) (i j : Nat) :
    (listSwap l i j).length = l.length := by
  unfold listSwap
  split <;> simp

theorem shuffleAux_length :
    ∀ (n : Nat) (rand : List Nat) (l : List α),
      (shuffleAux rand l n).length = l.length := by
  intro n
  induction n using Nat.strong_induction_on with
  | _ n ih =>
    intro rand l
    match n with
    | 0 => rfl
    | 1 => rfl
    | m + 2 =>
      simp only [shuffleAux]
      rw [ih (m + 1) (by omega)]
      exact listSwap_length l _ _

theorem shuffle_length (rand : List Nat) (l : List α) :
    (shuffle_player_ids rand l).length = l.length := by
  unfold shuffle_player_ids
  exact shuffleAux_length l.length rand l

@[simp] theorem sts_playerOrder (now : Int) (old new : GameState) :
    (set_turn_started_at now old new).playerOrder = new.playerOrder := by
  unfold set_turn_started_at; split <;> rfl

@[simp] theorem sts_asker (now : Int) (old new : GameState) :
    (set_turn_started_at now old new).currentAskerIndex =
      new.currentAskerIndex := by
  unfold set_turn_started_at; split <;> rfl

@[simp] theorem sts_answerer (now : Int) (old new : GameState) :
    (set_turn_started_at now old new).currentAnswererIndex =
      new.currentAnswererIndex := by
  unfold set_turn_started_at; split <;> rfl

@[simp] theorem sts_level (now : Int) (old new : GameState) :
    (set_turn_started_at now old new).currentLevel = new.currentLevel := by
  unfold set_turn_started_at; split <;> rfl

@[simp] theorem sts_count (now : Int) (old new : GameState) :
    (set_turn_started_at now old new).questionCount = new.questionCount := by
  unfold set_turn_started_at; split <;> rfl

@[simp] theorem sts_question (now : Int) (old new : GameState) :
    (set_turn_started_at now old new).currentQuestion =
      new.currentQuestion := by
  unfold set_turn_started_at; split <;> rfl

@[simp] theorem sts_rerolls (now : Int) (old new : GameState) :
    (set_turn_started_at now old new).rerollsUsed = new.rerollsUsed := by
  unfold set_turn_started_at; split <;> rfl

@[simp] theorem sts_asked (now : Int) (old new : GameState) :
    (set_turn_started_at now old new).askedQuestions =
      new.askedQuestions := by
  unfold set_turn_started_at; split <;> rfl

/-- When the question was just cleared, the turn timer is stamped. -/
theorem sts_stamped (now : Int) (old new : GameState)
    (hq : new.currentQuestion.isNone) (ho : old.currentQuestion.isSome) :
    (set_turn_started_at now old new).turnStartedAt = some now := by
  unfold set_turn_started_at
  rw [if_pos]
  simp [hq, ho]

/-- The level-transition trigger is a no-op while the question count is
below the per-level threshold. -/
theorem processNextTurnAux_noop (now : Int) (room : Room) (st : GameState)
    (h : st.questionCount < room.settings.questionsPerLevel.getD 3) :
    ∀ fuel rand,
      processNextTurnAux now room fuel rand st =
        { room with state := some st } := by
  intro fuel rand
  cases fuel with
  | zero => rfl
  | succ n =>
    unfold processNextTurnAux
    rw [if_neg (not_le.mpr h)]

/-- Any state produced by the level-transition trigger either is the
input state or has the indices freshly reset to asker 0, answerer 1. -/
theorem processNextTurnAux_indices (now : Int) (room : Room) :
    ∀ fuel rand st st',
      (processNextTurnAux now room fuel rand st).state = some st' →
      st' = st ∨
        (st'.currentAskerIndex = 0 ∧ st'.currentAnswererIndex = 1) := by
  intro fuel
  induction fuel with
  | zero =>
    intro rand st st' h
    left
    simp only [processNextTurnAux, Option.some.injEq] at h
    exact h.symm
  | succ n ih =>
    intro rand st st' h
    unfold processNextTurnAux at h
    by_cases hcnt : st.questionCount ≥ room.settings.questionsPerLevel.getD 3
    · rw [if_pos hcnt] at h
      by_cases hlvl : st.currentLevel > 1
      · rw [if_pos hlvl] at h
        rcases ih _ _ _ h with heq | hidx
        · right
          subst heq
          constructor <;> simp
        · right; exact hidx
      · rw [if_neg hlvl] at h
        left
        simp only [Option.some.injEq] at h
        exact h.symm
    · rw [if_neg hcnt] at h
      left
      simp only [Option.some.injEq] at h
      exact h.symm

/-- The level-transition trigger never touches `rerolls_used` and never
increases the level. -/
theorem processNextTurnAux_rerolls (now : Int) (room : Room) :
    ∀ fuel rand st st',
      (processNextTurnAux now room fuel rand st).state = some st' →
      st'.rerollsUsed = st.rerollsUsed ∧
        st'.currentLevel ≤ st.currentLevel := by
  intro fuel
  induction fuel with
  | zero =>
    intro rand st st' h
    simp only [processNextTurnAux, Option.some.injEq] at h
    subst h
    exact ⟨rfl, le_refl _⟩
  | succ n ih =>
    intro rand st st' h
    unfold processNextTurnAux at h
    by_cases hcnt : st.questionCount ≥ room.settings.questionsPerLevel.getD 3
    · rw [if_pos hcnt] at h
      by_cases hlvl : st.currentLevel > 1
      · rw [if_pos hlvl] at h
        obtain ⟨hr, hl⟩ := ih _ _ _ h
        refine ⟨by simp at hr; exact hr, ?_⟩
        have hstep : (st.currentLevel - 1 : Int) ≤ st.currentLevel := by omega
        calc st'.currentLevel ≤ _ := hl
        _ ≤ st.currentLevel := by simp
      · rw [if_neg hlvl] at h
        simp only [Option.some.injEq] at h
        subst h
        exact ⟨rfl, le_refl _⟩
    · rw [if_neg hcnt] at h
      simp only [Option.some.injEq] at h
      subst h
      exact ⟨rfl, le_refl _⟩

/-- For a modulus of at least 2, stepping once changes the residue. -/
theorem succ_mod_ne (n a : Nat) (hn : 2 ≤ n) : (a + 1) % n ≠ a := by
  intro heq
  have ha : a < n := heq ▸ Nat.mod_lt _ (by omega)
  have h1 : a % n = (a + 1) % n := by
    rw [heq, Nat.mod_eq_of_lt ha]
  have h2 : n ∣ (a + 1) - a := (Nat.modEq_iff_dvd' (Nat.le_succ a)).mp h1
  have h3 : n = 1 := Nat.dvd_one.mp (by simpa using h2)
  omega

theorem succ_mod_ne_mod (n a : Nat) (hn : 2 ≤ n) : (a + 1) % n ≠ a % n := by
  intro heq
  have h1 : (1 : Nat) % n = 1 := Nat.mod_eq_of_lt (by omega)
  have h2 : (a % n + 1) % n = a % n := by
    calc (a % n + 1) % n = (a % n + 1 % n) % n := by rw [h1]
    _ = (a + 1) % n := (Nat.add_mod a 1 n).symm
    _ = a % n := heq
  exact succ_mod_ne n (a % n) hn h2

/-- Projections untouched by a list-wide player update survive the map. -/
theorem map_proj_eq {β : Type} (g : Player → Player) (π : Player → β)
    (h : ∀ p, π (g p) = π p) (l : List Player) :
    (l.map g).map π = l.map π := by
  induction l with
  | nil => rfl
  | cons x xs ih => simp [h, ih]

/-! ### C1 — age-based room purge versus Playing rooms -/

/-- C1 counterexample: a room with status Playing and a non-empty roster
that is older than 2 hours is removed by the sweep solely on account of
its age — `cleanup_old_rooms` consults no status. -/
theorem cleanup_age_purge_deletes_playing_room :
    agedPlayingFixture.status = Status.playing ∧
    agedPlayingFixture.players ≠ [] ∧
    agedPlayingFixture.createdAt < 7201 - 7200 ∧
    cleanup_old_rooms 7201 [agedPlayingFixture] = [] := by
  refine ⟨rfl, by decide, by decide, by decide⟩

/-- C1 amended: the age-based purge removes every room older than 2
hours regardless of status — Playing rooms included — and the emptiness
purge is a separate additional criterion: a room survives the sweep
exactly when it is younger than 2 hours and still has a player. -/
theorem cleanup_old_rooms_membership (now : Int) (rooms : List Room)
    (r : Room) :
    r ∈ cleanup_old_rooms now rooms ↔
      r ∈ rooms ∧ ¬(r.createdAt < now - 7200) ∧ r.players ≠ [] := by
  unfold cleanup_old_rooms
  simp only [List.mem_filter, Bool.not_eq_true', decide_eq_false_iff_not]
  constructor
  · rintro ⟨⟨hmem, hage⟩, hne⟩
    exact ⟨hmem, hage, by simpa [List.isEmpty_iff] using hne⟩
  · rintro ⟨hmem, hage, hne⟩
    exact ⟨⟨hmem, hage⟩, by simpa [List.isEmpty_iff] using hne⟩

/-! ### C10 — heartbeat side effects -/

theorem markStale_proj {β : Type} (now : Int) (π : Player → β)
    (hπ : ∀ p, π { p with isDisconnected := true,
                          disconnectedAt := some now } = π p)
    (l : List Player) : (markStale now l).map π = l.map π := by
  unfold markStale
  apply map_proj_eq
  intro p
  split
  · exact hπ p
  · rfl

theorem hostSet_proj {β : Type} (π : Player → β)
    (hπ : ∀ p b, π { p with isHost := b } = π p)
    (pid0 : String) (b : Bool) (l : List Player) :
    (l.map (fun p =>
      if p.playerId = pid0 then { p with isHost := b } else p)).map π =
      l.map π := by
  apply map_proj_eq
  intro p
  dsimp only
  split
  · exact hπ p b
  · rfl

/-- Fields of the room other than the players and the host are never
touched by the heartbeat cleanup trigger, and the players keep their
identity, name, join time and session token. -/
theorem cleanup_heartbeat_frame (now : Int) (room : Room) (r' : Room)
    (h : cleanup_inactive_players_on_heartbeat now room = some r') :
    r'.state = room.state ∧ r'.status = room.status ∧
    r'.settings = room.settings ∧ r'.roomCode = room.roomCode ∧
    r'.createdAt = room.createdAt ∧
    r'.players.map (·.playerId) = room.players.map (·.playerId) ∧
    r'.players.map (·.playerName) = room.players.map (·.playerName) ∧
    r'.players.map (·.joinedAt) = room.players.map (·.joinedAt) ∧
    r'.players.map (·.sessionToken) = room.players.map (·.sessionToken) := by
  simp only [cleanup_inactive_players_on_heartbeat] at h
  split at h
  · simp only [Option.some.injEq] at h
    subst h
    refine ⟨rfl, rfl, rfl, rfl, rfl, ?_, ?_, ?_, ?_⟩
    · exact markStale_proj now (fun p => p.playerId) (fun p => rfl) _
    · exact markStale_proj now (fun p => p.playerName) (fun p => rfl) _
    · exact markStale_proj now (fun p => p.joinedAt) (fun p => rfl) _
    · exact markStale_proj now (fun p => p.sessionToken) (fun p => rfl) _
  · rename_i removedHost hfound
    split at h
    · rename_i newHost hhead
      simp only [Option.some.injEq] at h
      subst h
      refine ⟨rfl, rfl, rfl, rfl, rfl, ?_, ?_, ?_, ?_⟩
      · exact (hostSet_proj (fun p => p.playerId) (fun p b => rfl) _ _
            _).trans
          ((hostSet_proj (fun p => p.playerId) (fun p b => rfl) _ _ _).trans
            (markStale_proj now (fun p => p.playerId) (fun p => rfl) _))
      · exact (hostSet_proj (fun p => p.playerName) (fun p b => rfl) _ _
            _).trans
          ((hostSet_proj (fun p => p.playerName) (fun p b => rfl) _ _ _).trans
            (markStale_proj now (fun p => p.playerName) (fun p => rfl) _))
      · exact (hostSet_proj (fun p => p.joinedAt) (fun p b => rfl) _ _
            _).trans
          ((hostSet_proj (fun p => p.joinedAt) (fun p b => rfl) _ _ _).trans
            (markStale_proj now (fun p => p.joinedAt) (fun p => rfl) _))
      · exact (hostSet_proj (fun p => p.sessionToken) (fun p b => rfl) _ _
            _).trans
          ((hostSet_proj (fun p => p.sessionToken) (fun p b => rfl) _ _
            _).trans
            (markStale_proj now (fun p => p.sessionToken) (fun p => rfl) _))
    · exact absurd h (by simp)

/-- The same frame conditions through a heartbeat call. -/
theorem heartbeat_frame_aux (now : Int) (room : Room) (pid : String)
    (r' : Room) (h : player_heartbeat now room pid = some r') :
    r'.state = room.state ∧ r'.status = room.status ∧
    r'.settings = room.settings ∧ r'.roomCode = room.roomCode ∧
    r'.createdAt = room.createdAt ∧
    r'.players.map (·.playerId) = room.players.map (·.playerId) ∧
    r'.players.map (·.playerName) = room.players.map (·.playerName) ∧
    r'.players.map (·.joinedAt) = room.players.map (·.joinedAt) ∧
    r'.players.map (·.sessionToken) = room.players.map (·.sessionToken) := by
  unfold player_heartbeat at h
  split at h
  · simp only [Option.some.injEq] at h
    subst h
    exact ⟨rfl, rfl, rfl, rfl, rfl, rfl, rfl, rfl, rfl⟩
  · rename_i p0 hfound
    split at h
    · obtain ⟨h1, h2, h3, h4, h5, h6, h7, h8, h9⟩ :=
        cleanup_heartbeat_frame now _ _ h
      refine ⟨h1, h2, h3, h4, h5, ?_, ?_, ?_, ?_⟩
      · exact h6.trans
          (map_proj_eq _ _ (fun p => by split <;> rfl) _)
      · exact h7.trans
          (map_proj_eq _ _ (fun p => by split <;> rfl) _)
      · exact h8.trans
          (map_proj_eq _ _ (fun p => by split <;> rfl) _)
      · exact h9.trans
          (map_proj_eq _ _ (fun p => by split <;> rfl) _)
    · simp only [Option.some.injEq] at h
      subst h
      refine ⟨rfl, rfl, rfl, rfl, rfl, ?_, ?_, ?_, ?_⟩ <;>
        exact map_proj_eq _ _ (fun p => by split <;> rfl) _

theorem map_pres_mem (l : List Player) (g : Player → Player)
    (P : Player → Prop) (hg : ∀ p, P p → P (g p)) (h : ∀ p ∈ l, P p) :
    ∀ q ∈ l.map g, P q := by
  intro q hq
  obtain ⟨p, hp, rfl⟩ := List.mem_map.mp hq
  exact hg p (h p hp)

/-- A per-player property preserved by disconnect-marking and host
reassignment survives the heartbeat cleanup trigger. -/
theorem cleanup_pres (now : Int) (room : Room) (r' : Room)
    (h : cleanup_inactive_players_on_heartbeat now room = some r')
    (P : Player → Prop)
    (hmark : ∀ p, P p → p.lastHeartbeat < now - 120 →
      P { p with isDisconnected := true, disconnectedAt := some now })
    (hhost : ∀ p b, P p → P { p with isHost := b })
    (hall : ∀ p ∈ room.players, P p) :
    ∀ q ∈ r'.players, P q := by
  have hM : ∀ q ∈ markStale now room.players, P q := by
    unfold markStale
    intro q hq
    obtain ⟨p, hp, rfl⟩ := List.mem_map.mp hq
    split
    · rename_i hcond
      simp only [Bool.and_eq_true, decide_eq_true_eq, Bool.not_eq_true']
        at hcond
      exact hmark p (hall p hp) hcond.1
    · exact hall p hp
  simp only [cleanup_inactive_players_on_heartbeat] at h
  split at h
  · simp only [Option.some.injEq] at h
    subst h
    exact hM
  · split at h
    · simp only [Option.some.injEq] at h
      subst h
      refine map_pres_mem _ _ P ?_ (map_pres_mem _ _ P ?_ hM)
      · intro p hp
        split
        · exact hhost p true hp
        · exact hp
      · intro p hp
        split
        · exact hhost p false hp
        · exact hp
    · exact absurd h (by simp)

/-- C10 counterexample: "A" heartbeats at t=300 while "B" (connected,
silent since t=0) is stale; the heartbeat's cleanup trigger flips "B"
to Disconnected, so a heartbeat does change another player's
connection state. -/
theorem heartbeat_disconnects_bystander :
    staleFixture.players.map (·.isDisconnected) = [false, false] ∧
    player_heartbeat 300 staleFixture "A" = some staleAfterHeartbeat ∧
    staleAfterHeartbeat.players.map (·.isDisconnected) = [false, true] := by
  refine ⟨by decide, by decide, by decide⟩

/-- C10 amended: a successful Heartbeat sets the caller's
`lastHeartbeatAt` and leaves the turn state, the room metadata and
every player's identity, name, join time and session token unchanged;
but through the cleanup trigger it may also mark stale players
Disconnected, reassign the host, or (when no connected player remains)
delete the room — so connection flags and host role are the only other
fields that can move. -/
theorem heartbeat_effects (now : Int) (room : Room) (pid : String)
    (r' : Room) (h : player_heartbeat now room pid = some r') :
    r'.state = room.state ∧ r'.status = room.status ∧
    r'.settings = room.settings ∧ r'.roomCode = room.roomCode ∧
    r'.createdAt = room.createdAt ∧
    r'.players.map (·.playerId) = room.players.map (·.playerId) ∧
    r'.players.map (·.playerName) = room.players.map (·.playerName) ∧
    r'.players.map (·.joinedAt) = room.players.map (·.joinedAt) ∧
    r'.players.map (·.sessionToken) = room.players.map (·.sessionToken) ∧
    ∀ p' ∈ r'.players, p'.playerId = pid → p'.lastHeartbeat = now := by
  obtain ⟨h1, h2, h3, h4, h5, h6, h7, h8, h9⟩ :=
    heartbeat_frame_aux now room pid r' h
  refine ⟨h1, h2, h3, h4, h5, h6, h7, h8, h9, ?_⟩
  simp only [player_heartbeat] at h
  split at h
  · rename_i hfound
    simp only [Option.some.injEq] at h
    subst h
    intro p' hp' hpid
    exact absurd (List.find?_eq_none.mp hfound p' hp') (by simp [hpid])
  · rename_i p0 hfound
    have hbase : ∀ q ∈ room.players.map (fun p =>
        if p.playerId = pid then { p with lastHeartbeat := now } else p),
        q.playerId = pid → q.lastHeartbeat = now := by
      intro q hq
      obtain ⟨p, hp, rfl⟩ := List.mem_map.mp hq
      split
      · intro _; rfl
      · rename_i hne
        intro hqid
        exact absurd hqid hne
    split at h
    · exact cleanup_pres now _ _ h _
        (fun p hp _ hq => hp hq) (fun p b hp hq => hp hq) hbase
    · simp only [Option.some.injEq] at h
      subst h
      exact hbase

/-- C10 amended, witnessed at the concrete stale-roster room. -/
theorem heartbeat_effects_witness :
    staleAfterHeartbeat.state = staleFixture.state ∧
    staleAfterHeartbeat.status = staleFixture.status ∧
    staleAfterHeartbeat.settings = staleFixture.settings ∧
    staleAfterHeartbeat.roomCode = staleFixture.roomCode ∧
    staleAfterHeartbeat.createdAt = staleFixture.createdAt ∧
    staleAfterHeartbeat.players.map (·.playerId) =
      staleFixture.players.map (·.playerId) ∧
    staleAfterHeartbeat.players.map (·.playerName) =
      staleFixture.players.map (·.playerName) ∧
    staleAfterHeartbeat.players.map (·.joinedAt) =
      staleFixture.players.map (·.joinedAt) ∧
    staleAfterHeartbeat.players.map (·.sessionToken) =
      staleFixture.players.map (·.sessionToken) ∧
    ∀ p' ∈ staleAfterHeartbeat.players, p'.playerId = "A" →
      p'.lastHeartbeat = 300 :=
  heartbeat_effects 300 staleFixture "A" staleAfterHeartbeat (by decide)

/-! ### C9 — reconnection: validation and frame conditions -/

/-- C9: `reconnect_player` fails with INVALID_SESSION exactly when no
player row matches the `(roomCode, playerId, sessionToken)` triple
(the room code being implicit in the room value); it never deletes the
room; and on success it clears the matched player's disconnected state
and refreshes their heartbeat while leaving the turn state (and with it
`playerOrder`, `askerIndex`, `answererIndex`, `currentQuestion`), the
room metadata and the roster's identities unchanged. -/
theorem reconnect_player_spec (now : Int) (room : Room) (pid tok : String) :
    (reconnect_player now room pid tok = .invalidSession ↔
      ∀ p ∈ room.players, ¬(p.playerId = pid ∧ p.sessionToken = tok)) ∧
    reconnect_player now room pid tok ≠ .roomDeleted ∧
    ∀ r', reconnect_player now room pid tok = .ok r' →
      r'.state = room.state ∧ r'.status = room.status ∧
      r'.settings = room.settings ∧ r'.roomCode = room.roomCode ∧
      r'.players.map (·.playerId) = room.players.map (·.playerId) ∧
      ∀ p' ∈ r'.players, p'.playerId = pid →
        p'.isDisconnected = false ∧ p'.lastHeartbeat = now ∧
        p'.disconnectedAt = none := by
  cases hf : room.players.find?
      (fun p => p.playerId = pid && p.sessionToken = tok) with
  | none =>
    have hre : reconnect_player now room pid tok = .invalidSession := by
      simp only [reconnect_player, hf]
    refine ⟨?_, ?_, ?_⟩
    · refine iff_of_true hre ?_
      intro p hp hand
      have hn := List.find?_eq_none.mp hf p hp
      simp [hand.1, hand.2] at hn
    · rw [hre]
      simp
    · intro r' h
      rw [hre] at h
      exact absurd h (by simp)
  | some matched =>
    have hmem : matched ∈ room.players := List.mem_of_find?_eq_some hf
    have hpred := List.find?_some hf
    simp only [Bool.and_eq_true, decide_eq_true_eq] at hpred
    obtain ⟨hpid, htok⟩ := hpred
    have hbase : ∀ q ∈ room.players.map (fun p =>
        if p.playerId = pid then reconnectMark now p else p),
        q.playerId = pid → q.isDisconnected = false ∧
          q.lastHeartbeat = now ∧ q.disconnectedAt = none := by
      intro q hq
      obtain ⟨p, hp, rfl⟩ := List.mem_map.mp hq
      split
      · exact fun _ => ⟨rfl, rfl, rfl⟩
      · rename_i hne
        intro hqid
        exact absurd hqid hne
    have hxmem : reconnectMark now matched ∈
        room.players.map (fun p =>
          if p.playerId = pid then reconnectMark now p else p) := by
      have hfx : (if matched.playerId = pid then reconnectMark now matched
          else matched) = reconnectMark now matched := if_pos hpid
      exact hfx ▸ List.mem_map_of_mem _ hmem
    have hxstale : reconnectMark now matched ∈
        markStale now (room.players.map (fun p =>
          if p.playerId = pid then reconnectMark now p else p)) := by
      unfold markStale
      refine List.mem_map.mpr ⟨_, hxmem, ?_⟩
      split
      · rename_i hcond
        exfalso
        simp only [reconnectMark, Bool.and_eq_true, decide_eq_true_eq]
          at hcond
        omega
      · rfl
    have hnotnone : cleanup_inactive_players_on_heartbeat now
        { room with players := room.players.map (fun p =>
          if p.playerId = pid then reconnectMark now p else p) } ≠
          none := by
      intro hc
      simp only [cleanup_inactive_players_on_heartbeat] at hc
      split at hc
      · exact absurd hc (by simp)
      · split at hc
        · exact absurd hc (by simp)
        · rename_i hhead
          rw [List.head?_eq_none_iff] at hhead
          have hxact : reconnectMark now matched ∈
              List.filter (fun p => !p.isDisconnected)
                (markStale now (room.players.map (fun p =>
                  if p.playerId = pid then reconnectMark now p else p))) :=
            List.mem_filter.mpr ⟨hxstale, by simp [reconnectMark]⟩
          rw [hhead] at hxact
          exact absurd hxact (by simp)
    refine ⟨?_, ?_, ?_⟩
    · refine iff_of_false ?_ ?_
      · simp only [reconnect_player, hf]
        split
        · cases hc : cleanup_inactive_players_on_heartbeat now
              { room with players := room.players.map (fun p =>
                if p.playerId = pid then reconnectMark now p else p) } with
          | none => exact absurd hc hnotnone
          | some r2 => simp
        · simp
      · intro hall
        exact hall matched hmem ⟨hpid, htok⟩
    · simp only [reconnect_player, hf]
      split
      · cases hc : cleanup_inactive_players_on_heartbeat now
            { room with players := room.players.map (fun p =>
              if p.playerId = pid then reconnectMark now p else p) } with
        | none => exact absurd hc hnotnone
        | some r2 => simp
      · simp
    · intro r' h
      simp only [reconnect_player, hf] at h
      split at h
      · cases hc : cleanup_inactive_players_on_heartbeat now
            { room with players := room.players.map (fun p =>
              if p.playerId = pid then reconnectMark now p else p) } with
        | none => exact absurd hc hnotnone
        | some r2 =>
          rw [hc] at h
          simp only [ReconnectRes.ok.injEq] at h
          subst h
          obtain ⟨c1, c2, c3, c4, c5, c6, c7, c8, c9⟩ :=
            cleanup_heartbeat_frame now _ _ hc
          refine ⟨c1, c2, c3, c4, ?_, ?_⟩
          · exact c6.trans
              (map_proj_eq _ _ (fun p => by split <;> rfl) _)
          · exact cleanup_pres now _ _ hc _
              (fun p hp hlt hqid => by
                obtain ⟨_, hhb, _⟩ := hp hqid
                rw [hhb] at hlt
                omega)
              (fun p b hp hqid => hp hqid)
              hbase
      · simp only [ReconnectRes.ok.injEq] at h
        subst h
        exact ⟨rfl, rfl, rfl, rfl,
          map_proj_eq _ _ (fun p => by split <;> rfl) _, hbase⟩

/-- C9 witnessed at a concrete disconnected player with a valid token. -/
theorem reconnect_player_spec_witness :
    (reconnect_player 300 reconnectFixture "B" "tokB" = .invalidSession ↔
      ∀ p ∈ reconnectFixture.players,
        ¬(p.playerId = "B" ∧ p.sessionToken = "tokB")) ∧
    reconnect_player 300 reconnectFixture "B" "tokB" ≠ .roomDeleted ∧
    ∀ r', reconnect_player 300 reconnectFixture "B" "tokB" = .ok r' →
      r'.state = reconnectFixture.state ∧
      r'.status = reconnectFixture.status ∧
      r'.settings = reconnectFixture.settings ∧
      r'.roomCode = reconnectFixture.roomCode ∧
      r'.players.map (·.playerId) =
        reconnectFixture.players.map (·.playerId) ∧
      ∀ p' ∈ r'.players, p'.playerId = "B" →
        p'.isDisconnected = false ∧ p'.lastHeartbeat = 300 ∧
        p'.disconnectedAt = none :=
  reconnect_player_spec 300 reconnectFixture "B" "tokB"

/-! ### C5 — advance_turn guards -/

/-- C5 counterexample: with `currentQuestion` null, `advance_turn`
called by the current answerer succeeds and mutates the turn state —
the function has no NoActiveQuestion check. -/
theorem advance_turn_no_question_check :
    noQuestionFixture.state.map (·.currentQuestion) = some none ∧
    advance_turn 200 [] noQuestionFixture "B" none =
      .ok noQuestionAdvanced ∧
    noQuestionAdvanced.state.map (·.questionCount) = some 1 ∧
    noQuestionAdvanced.state.map (·.currentAskerIndex) = some 1 ∧
    noQuestionAdvanced.state.map (·.currentAnswererIndex) = some 0 := by
  refine ⟨by decide, by decide, by decide, by decide, by decide⟩

/-- C5 amended: `advance_turn` fails with the not-current-answerer
error whenever the extracted `playerOrder[answererIndex]` disagrees
with the requester, but it performs no check on `currentQuestion`: when
the requester is the current answerer and the room is Playing, the call
succeeds even with a null question, rotating the indices and
incrementing the count. -/
theorem advance_turn_guards (now : Int) (rand : List Nat) (room : Room)
    (pid : String) (st : GameState) (hst : room.state = some st) :
    (∀ a, st.playerOrder[st.currentAnswererIndex]? = some a → a ≠ pid →
      advance_turn now rand room pid none =
        .err "Only the current answerer can advance the turn") ∧
    (st.playerOrder[st.currentAnswererIndex]? = some pid →
      room.status = .playing →
      ∃ r', advance_turn now rand room pid none = .ok r') := by
  constructor
  · intro a ha hne
    have hg : idGuardFails st.playerOrder st.currentAnswererIndex
        pid = true := by
      unfold idGuardFails
      rw [ha]
      simpa using hne
    simp only [advance_turn, hst]
    rw [if_pos hg]
  · intro ha hplay
    have hguard : idGuardFails st.playerOrder st.currentAnswererIndex
        pid = false := by
      unfold idGuardFails
      rw [ha]
      simp
    have hlen : st.playerOrder.length ≠ 0 := by
      intro h0
      rw [List.getElem?_eq_none (by omega)] at ha
      exact absurd ha (by simp)
    simp only [advance_turn, hst]
    rw [if_neg (by simp [hguard]), if_neg hlen,
      if_neg (by simp [hplay])]
    exact ⟨_, rfl⟩

/-- C5 amended, witnessed: "A" (the asker, not the answerer) is
rejected, while answerer "B" succeeds with the question slot empty. -/
theorem advance_turn_guards_witness :
    advance_turn 200 [] noQuestionFixture "A" none =
      .err "Only the current answerer can advance the turn" ∧
    ∃ r', advance_turn 200 [] noQuestionFixture "B" none = .ok r' := by
  constructor
  · exact (advance_turn_guards 200 [] noQuestionFixture "A" _ rfl).1
      "B" (by decide) (by decide)
  · exact (advance_turn_guards 200 [] noQuestionFixture "B" _ rfl).2
      (by decide) (by decide)

/-! ### C7 — starting the game -/

/-- C7: starting is rejected with a not-host error when the requester
is not the current host, rejected for fewer than 2 players (exactly
when the roster is smaller than 2), and on success overwrites
`settings.questionsPerLevel` with the roster size while moving the
room to Playing. -/
theorem start_game_spec (now : Int) (rand : List Nat) (room : Room)
    (pid : String) :
    (room.hostId ≠ pid →
      start_game now rand room pid =
        .err "Only the host can start the game") ∧
    (room.hostId = pid → room.status = .lobby →
      ((start_game now rand room pid =
          .err "Need at least 2 players to start") ↔
        room.players.length < 2)) ∧
    (room.hostId = pid → room.status = .lobby →
      2 ≤ room.players.length →
      ∃ r', start_game now rand room pid = .ok r' ∧
        r'.settings.questionsPerLevel = some (room.players.length : Int) ∧
        r'.status = .playing) := by
  refine ⟨?_, ?_, ?_⟩
  · intro hne
    unfold start_game
    rw [if_pos hne]
  · intro hhost hlobby
    unfold start_game
    rw [if_neg (by simp [hhost]), if_neg (by simp [hlobby])]
    by_cases hlen : room.players.length < 2
    · rw [if_pos hlen]
      simpa using hlen
    · rw [if_neg hlen]
      exact iff_of_false (by simp) hlen
  · intro hhost hlobby hlen
    unfold start_game
    rw [if_neg (by simp [hhost]), if_neg (by simp [hlobby]),
      if_neg (by omega)]
    refine ⟨_, rfl, ?_, rfl⟩
    cases room.state <;> rfl

/-- C7 witnessed on the two-player lobby: a stranger "Z" is rejected,
the host "A" is not under-populated, and success sets
`questionsPerLevel` to the roster size 2. -/
theorem start_game_spec_witness :
    start_game 100 [0] lobbyFixture "Z" =
      .err "Only the host can start the game" ∧
    ((start_game 100 [0] lobbyFixture "A" =
        .err "Need at least 2 players to start") ↔
      lobbyFixture.players.length < 2) ∧
    ∃ r', start_game 100 [0] lobbyFixture "A" = .ok r' ∧
      r'.settings.questionsPerLevel =
        some (lobbyFixture.players.length : Int) ∧
      r'.status = .playing := by
  refine ⟨?_, ?_, ?_⟩
  · exact (start_game_spec 100 [0] lobbyFixture "Z").1 (by decide)
  · exact (start_game_spec 100 [0] lobbyFixture "A").2.1 rfl rfl
  · exact (start_game_spec 100 [0] lobbyFixture "A").2.2 rfl rfl (by decide)

/-! ### C3 — rotation for a non-level-completing AdvanceTurn -/

/-- C3: when a successful `advance_turn` does not complete the level
(the incremented count stays below `questionsPerLevel`), the new asker
is the old answerer, the new answerer is the old answerer's successor
modulo the order length, the count grows by exactly one, the level is
unchanged, the question is cleared and the turn timer is restamped. -/
theorem advance_turn_rotation (now : Int) (rand : List Nat) (room : Room)
    (pid : String) (q : Option String) (st : GameState)
    (hst : room.state = some st)
    (hq : st.currentQuestion.isSome)
    (hcnt : st.questionCount + 1 < room.settings.questionsPerLevel.getD 3)
    (r' : Room) (h : advance_turn now rand room pid q = .ok r') :
    ∃ st', r'.state = some st' ∧
      st'.currentAskerIndex = st.currentAnswererIndex ∧
      st'.currentAnswererIndex =
        (st.currentAnswererIndex + 1) % st.playerOrder.length ∧
      st'.questionCount = st.questionCount + 1 ∧
      st'.currentLevel = st.currentLevel ∧
      st'.currentQuestion = none ∧
      st'.turnStartedAt = some now := by
  simp only [advance_turn, hst] at h
  split at h
  · exact absurd h (by simp)
  · split at h
    · exact absurd h (by simp)
    · split at h
      · exact absurd h (by simp)
      · simp only [Res.ok.injEq] at h
        subst h
        rw [processNextTurnAux_noop now room _ (by simpa using hcnt)]
        refine ⟨_, rfl, by simp, by simp, by simp, by simp, by simp, ?_⟩
        exact sts_stamped now st _ (by simp) hq

/-- C3 witnessed: in the two-player mid-game room with a question set,
"B" advances; asker becomes 1, answerer 0, count 1. -/
theorem advance_turn_rotation_witness :
    ∃ st', midGameAdvanced.state = some st' ∧
      st'.currentAskerIndex = 1 ∧
      st'.currentAnswererIndex = (1 + 1) % (["A", "B"] : List String).length ∧
      st'.questionCount = 0 + 1 ∧
      st'.currentLevel = 5 ∧
      st'.currentQuestion = none ∧
      st'.turnStartedAt = some 200 :=
  advance_turn_rotation 200 [] midGameFixture "B"
    (some "What matters most to you?") _ rfl (by decide) (by decide)
    midGameAdvanced (by decide)

/-! ### C6 — reroll is a per-player, per-level right -/

theorem rerollLookup_set (m : List (Int × List String)) (k : Int)
    (v : List String) : rerollLookup (rerollSet m k v) k = some v := by
  induction m with
  | nil => simp [rerollSet, rerollLookup]
  | cons x xs ih =>
    unfold rerollSet
    by_cases hx : x.1 = k
    · rw [if_pos hx]
      simp [rerollLookup]
    · rw [if_neg hx]
      unfold rerollLookup at ih ⊢
      simp only [List.find?_cons, decide_eq_false hx]
      exact ih

theorem rerollLookup_none (m : List (Int × List String)) (k : Int)
    (h : ∀ kv ∈ m, kv.1 ≠ k) : rerollLookup m k = none := by
  unfold rerollLookup
  rw [List.find?_eq_none.mpr]
  · rfl
  · intro kv hkv
    simpa using h kv hkv

/-- C6: with the answerer calling, a question set and the room Playing,
`reroll_question` fails with the already-used error exactly when the
requester's own id is recorded under the current level; a player not
yet recorded (in particular a second, distinct player after another's
reroll) succeeds, appending exactly their id to the level's entry; and
after any level change caused by `advance_turn` the entry for the new
current level is empty (given the invariant that recorded levels are
never below the current level). -/
theorem reroll_per_player (now : Int) (rand : List Nat) (room : Room)
    (pid : String) (st : GameState)
    (hst : room.state = some st)
    (hans : st.playerOrder[st.currentAnswererIndex]? = some pid)
    (hq : st.currentQuestion.isSome)
    (hplay : room.status = .playing)
    (hcnt : st.questionCount < room.settings.questionsPerLevel.getD 3) :
    ((reroll_question now rand room pid =
        .err "You have already used your reroll for this level") ↔
      pid ∈ (rerollLookup st.rerollsUsed st.currentLevel).getD []) ∧
    (pid ∉ (rerollLookup st.rerollsUsed st.currentLevel).getD [] →
      ∃ r' st', reroll_question now rand room pid = .ok r' ∧
        r'.state = some st' ∧ st'.currentLevel = st.currentLevel ∧
        rerollLookup st'.rerollsUsed st'.currentLevel =
          some (((rerollLookup st.rerollsUsed st.currentLevel).getD []) ++
            [pid])) ∧
    (∀ pid2 q2 r' st',
      (∀ kv ∈ st.rerollsUsed, st.currentLevel ≤ kv.1) →
      advance_turn now rand room pid2 q2 = .ok r' →
      r'.state = some st' →
      st'.currentLevel ≠ st.currentLevel →
      (rerollLookup st'.rerollsUsed st'.currentLevel).getD [] = []) := by
  have hguard : idGuardFails st.playerOrder st.currentAnswererIndex
      pid = false := by
    unfold idGuardFails
    rw [hans]
    simp
  have hqn : ¬ st.currentQuestion.isNone = true := by
    simp only [Option.isNone_iff_eq_none]
    intro hnone
    rw [hnone] at hq
    exact absurd hq (by simp)
  have hmemiff :
      ((rerollLookup st.rerollsUsed st.currentLevel).isSome &&
        ((rerollLookup st.rerollsUsed st.currentLevel).getD
          []).contains pid) = true ↔
      pid ∈ (rerollLookup st.rerollsUsed st.currentLevel).getD [] := by
    cases he : rerollLookup st.rerollsUsed st.currentLevel with
    | none => simp
    | some arr => simp [List.elem_iff]
  refine ⟨?_, ?_, ?_⟩
  · simp only [reroll_question, hst]
    rw [if_neg (by simp [hguard]), if_neg hqn]
    by_cases hu : ((rerollLookup st.rerollsUsed st.currentLevel).isSome &&
        ((rerollLookup st.rerollsUsed st.currentLevel).getD
          []).contains pid) = true
    · rw [if_pos hu]
      exact iff_of_true rfl (hmemiff.mp hu)
    · rw [if_neg hu, if_neg (by simp [hplay])]
      refine iff_of_false (by simp) ?_
      intro hmem
      exact hu (hmemiff.mpr hmem)
  · intro hmem
    have hu : ¬ ((rerollLookup st.rerollsUsed st.currentLevel).isSome &&
        ((rerollLookup st.rerollsUsed st.currentLevel).getD
          []).contains pid) = true := fun hx => hmem (hmemiff.mp hx)
    simp only [reroll_question, hst]
    rw [if_neg (by simp [hguard]), if_neg hqn, if_neg hu,
      if_neg (by simp [hplay])]
    rw [processNextTurnAux_noop now room _ (by simpa using hcnt)]
    refine ⟨_, _, rfl, rfl, by simp, ?_⟩
    rw [sts_rerolls, sts_level]
    exact rerollLookup_set st.rerollsUsed st.currentLevel _
  · intro pid2 q2 r' st' hkeys hadv hst' hlvl
    simp only [advance_turn, hst] at hadv
    split at hadv
    · exact absurd hadv (by simp)
    · split at hadv
      · exact absurd hadv (by simp)
      · split at hadv
        · exact absurd hadv (by simp)
        · simp only [Res.ok.injEq] at hadv
          subst hadv
          obtain ⟨hre, hle⟩ := processNextTurnAux_rerolls now room _ _ _ _ hst'
          rw [sts_rerolls] at hre
          rw [sts_level] at hle
          have hlt : st'.currentLevel < st.currentLevel := by
            rcases lt_or_eq_of_le (by simpa using hle) with hlt | heq
            · exact hlt
            · exact absurd heq hlvl
          rw [rerollLookup_none]
          · rfl
          · intro kv hkv
            rw [hre] at hkv
            have := hkeys kv (by simpa using hkv)
            omega

/-- C6 witnessed: "A" already rerolled at level 5; "B" is not blocked,
and after "B" completes the level the fresh level-4 entry is empty. -/
theorem reroll_per_player_witness :
    ((reroll_question 200 [] rerollFixture "B" =
        .err "You have already used your reroll for this level") ↔
      "B" ∈ (rerollLookup [(5, ["A"])] 5).getD []) ∧
    (rerollLookup rerollAdvancedState.rerollsUsed
      rerollAdvancedState.currentLevel).getD [] = [] := by
  constructor
  · exact (reroll_per_player 200 [] rerollFixture "B" _ rfl (by decide)
      (by decide) (by decide) (by decide)).1
  · exact (reroll_per_player 200 [] rerollFixture "B" _ rfl (by decide)
      (by decide) (by decide) (by decide)).2.2 "B" none rerollAdvanced
      rerollAdvancedState (by decide) (by decide) (by decide) (by decide)

/-! ### C8 — turn timeout and auto-skip -/

theorem sts_keep (now : Int) (old new : GameState)
    (h : new.turnStartedAt = some now) :
    (set_turn_started_at now old new).turnStartedAt = some now := by
  unfold set_turn_started_at
  split
  · rfl
  · exact h

/-- C8: past the timeout threshold, a Disconnected asker is skipped
with exactly the no-question `advance_turn` rotation — new asker the
old answerer (`answerer % n`, i.e. the answerer for an in-range
index), new answerer its successor modulo the order length — a
restamped turn timer, and `questionCount` and `askedQuestions`
untouched; a connected asker is reported timed-out but nothing is
rotated or mutated. -/
theorem check_turn_timeout_spec (now : Int) (rand : List Nat) (room : Room)
    (st : GameState) (t0 : Int) (asker : Player)
    (hst : room.state = some st)
    (ht : st.turnStartedAt = some t0)
    (hage : st.turnTimeoutSeconds ≤ now - t0)
    (hfind : room.players.find?
      (fun p => st.playerOrder[st.currentAskerIndex]? = some p.playerId) =
        some asker) :
    (asker.isDisconnected = true → room.status = .playing →
      st.currentAnswererIndex < st.playerOrder.length →
      st.questionCount < room.settings.questionsPerLevel.getD 3 →
      ∃ r', check_turn_timeout now rand room =
          ({ success := true, timedOut := some true,
             skipped := some true }, r') ∧
        ∃ st', r'.state = some st' ∧
          st'.currentAskerIndex = st.currentAnswererIndex ∧
          st'.currentAnswererIndex =
            (st.currentAnswererIndex + 1) % st.playerOrder.length ∧
          st'.turnStartedAt = some now ∧
          st'.questionCount = st.questionCount ∧
          st'.askedQuestions = st.askedQuestions) ∧
    (asker.isDisconnected = false →
      check_turn_timeout now rand room =
        ({ success := true, timedOut := some true, skipped := some false },
          room)) := by
  constructor
  · intro hdisc hplay hlt hcnt
    simp only [check_turn_timeout, hst, ht, hfind]
    rw [if_neg (not_lt.mpr hage), if_neg (by simp [hdisc]),
      if_neg (by omega), if_neg (by simp [hplay])]
    rw [processNextTurnAux_noop now room _ (by simpa using hcnt)]
    refine ⟨_, rfl, _, rfl, ?_, ?_, ?_, ?_, ?_⟩
    · rw [sts_asker]
      exact Nat.mod_eq_of_lt hlt
    · rw [sts_answerer]
    · exact sts_keep now st _ rfl
    · rw [sts_count]
    · rw [sts_asked]
  · intro hconn
    simp only [check_turn_timeout, hst, ht, hfind]
    rw [if_neg (not_lt.mpr hage), if_pos hconn]

/-- C8 witnessed: disconnected asker "A", 100-second-old turn with a
60-second timeout, two players — skipped with the ping-pong rotation. -/
theorem check_turn_timeout_spec_witness :
    ∃ r', check_turn_timeout 200 [] timeoutFixture =
        ({ success := true, timedOut := some true,
           skipped := some true }, r') ∧
      ∃ st', r'.state = some st' ∧
        st'.currentAskerIndex = 1 ∧
        st'.currentAnswererIndex = (1 + 1) % (["A", "B"] :
          List String).length ∧
        st'.turnStartedAt = some 200 ∧
        st'.questionCount = 0 ∧
        st'.askedQuestions = [] :=
  (check_turn_timeout_spec 200 [] timeoutFixture _ 100 _ rfl rfl
    (by decide) rfl).1 (by decide) rfl (by decide) (by decide)

/-! ### C2 — asker and answerer stay distinct -/

/-- C2: whenever the player order has at least 2 entries, the asker and
answerer indices differ after game start (the level initializer),
after every successful `advance_turn` (including the level-transition
reset to 0/1), after every successful `reroll_question` (which keeps
the indices, given they were distinct), and after every
timeout-driven skip. -/
theorem indices_distinct (now : Int) (rand : List Nat) (room : Room)
    (pid : String) (q : Option String) :
    (∀ r' st', start_game now rand room pid = .ok r' →
      r'.state = some st' → 2 ≤ st'.playerOrder.length →
      st'.currentAskerIndex ≠ st'.currentAnswererIndex) ∧
    (∀ r' st', advance_turn now rand room pid q = .ok r' →
      r'.state = some st' → 2 ≤ st'.playerOrder.length →
      st'.currentAskerIndex ≠ st'.currentAnswererIndex) ∧
    (∀ st, room.state = some st →
      (2 ≤ st.playerOrder.length →
        st.currentAskerIndex ≠ st.currentAnswererIndex) →
      ∀ r' st', reroll_question now rand room pid = .ok r' →
        r'.state = some st' → 2 ≤ st'.playerOrder.length →
        st'.currentAskerIndex ≠ st'.currentAnswererIndex) ∧
    (∀ rep r' st', check_turn_timeout now rand room = (rep, r') →
      rep.skipped = some true → r'.state = some st' →
      2 ≤ st'.playerOrder.length →
      st'.currentAskerIndex ≠ st'.currentAnswererIndex) := by
  refine ⟨?_, ?_, ?_, ?_⟩
  · intro r' st' h hsome hlen
    cases hrs : room.state with
    | none =>
      simp only [start_game, hrs] at h
      split at h
      · exact absurd h (by simp)
      · split at h
        · exact absurd h (by simp)
        · split at h
          · exact absurd h (by simp)
          · simp only [Res.ok.injEq] at h
            subst h
            simp only [Option.some.injEq] at hsome
            rw [← hsome]
            simp
    | some old =>
      simp only [start_game, hrs] at h
      split at h
      · exact absurd h (by simp)
      · split at h
        · exact absurd h (by simp)
        · split at h
          · exact absurd h (by simp)
          · simp only [Res.ok.injEq] at h
            subst h
            simp only [Option.some.injEq] at hsome
            rw [← hsome, sts_asker, sts_answerer]
            simp
  · intro r' st' h hsome hlen
    cases hrs : room.state with
    | none =>
      rw [advance_turn, hrs] at h
      exact absurd h (by simp)
    | some st =>
      simp only [advance_turn, hrs] at h
      split at h
      · exact absurd h (by simp)
      · split at h
        · exact absurd h (by simp)
        · split at h
          · exact absurd h (by simp)
          · simp only [Res.ok.injEq] at h
            subst h
            rcases processNextTurnAux_indices now room _ _ _ _ hsome with
              heq | hidx
            · subst heq
              rw [sts_asker, sts_answerer]
              rw [sts_playerOrder] at hlen
              exact (succ_mod_ne st.playerOrder.length
                st.currentAnswererIndex (by simpa using hlen)).symm
            · rw [hidx.1, hidx.2]
              decide
  · intro st hst hdist r' st' h hsome hlen
    simp only [reroll_question, hst] at h
    split at h
    · exact absurd h (by simp)
    · split at h
      · exact absurd h (by simp)
      · split at h
        · exact absurd h (by simp)
        · split at h
          · exact absurd h (by simp)
          · simp only [Res.ok.injEq] at h
            subst h
            rcases processNextTurnAux_indices now room _ _ _ _ hsome with
              heq | hidx
            · subst heq
              rw [sts_asker, sts_answerer]
              rw [sts_playerOrder] at hlen
              exact hdist (by simpa using hlen)
            · rw [hidx.1, hidx.2]
              decide
  · intro rep r' st' h hskip hsome hlen
    cases hrs : room.state with
    | none =>
      rw [check_turn_timeout, hrs] at h
      simp only [Prod.mk.injEq] at h
      rw [← h.1] at hskip
      exact absurd hskip (by simp)
    | some st =>
      simp only [check_turn_timeout, hrs] at h
      cases hts : st.turnStartedAt with
      | none =>
        rw [hts] at h
        simp only [Prod.mk.injEq] at h
        rw [← h.1] at hskip
        exact absurd hskip (by simp)
      | some t0 =>
        rw [hts] at h
        split at h
        · simp only [Prod.mk.injEq] at h
          rw [← h.1] at hskip
          exact absurd hskip (by simp)
        · split at h
          · simp only [Prod.mk.injEq] at h
            rw [← h.1] at hskip
            exact absurd hskip (by simp)
          · split at h
            · simp only [Prod.mk.injEq] at h
              rw [← h.1] at hskip
              exact absurd hskip (by simp)
            · split at h
              · simp only [Prod.mk.injEq] at h
                rw [← h.1] at hskip
                exact absurd hskip (by simp)
              · split at h
                · simp only [Prod.mk.injEq] at h
                  rw [← h.1] at hskip
                  exact absurd hskip (by simp)
                · split at h
                  · simp only [Prod.mk.injEq] at h
                    rw [← h.1] at hskip
                    exact absurd hskip (by simp)
                  · simp only [Prod.mk.injEq] at h
                    rw [← h.2] at hsome
                    rcases processNextTurnAux_indices now room _ _ _ _
                        hsome with heq | hidx
                    · subst heq
                      rw [sts_asker, sts_answerer]
                      rw [sts_playerOrder] at hlen
                      exact (succ_mod_ne_mod st.playerOrder.length
                        st.currentAnswererIndex (by simpa using hlen)).symm
                    · rw [hidx.1, hidx.2]
                      decide

/-- C2 witnessed across the four transitions on concrete two-player
rooms. -/
theorem indices_distinct_witness :
    (∀ st', startedFixture.state = some st' →
      2 ≤ st'.playerOrder.length →
      st'.currentAskerIndex ≠ st'.currentAnswererIndex) ∧
    (∀ st', midGameAdvanced.state = some st' →
      2 ≤ st'.playerOrder.length →
      st'.currentAskerIndex ≠ st'.currentAnswererIndex) ∧
    (∀ st', (check_turn_timeout 200 [] timeoutFixture).2.state =
        some st' →
      2 ≤ st'.playerOrder.length →
      st'.currentAskerIndex ≠ st'.currentAnswererIndex) := by
  refine ⟨?_, ?_, ?_⟩
  · intro st' hsome hlen
    exact (indices_distinct 100 [0] lobbyFixture "A" none).1
      startedFixture st' (by decide) hsome hlen
  · intro st' hsome hlen
    exact (indices_distinct 200 [] midGameFixture "B"
      (some "What matters most to you?")).2.1
      midGameAdvanced st' (by decide) hsome hlen
  · intro st' hsome hlen
    exact (indices_distinct 200 [] timeoutFixture "B" none).2.2.2
      (check_turn_timeout 200 [] timeoutFixture).1
      (check_turn_timeout 200 [] timeoutFixture).2 st' rfl (by decide)
      hsome hlen

/-! ### C4 — termination of a two-player game -/

/-- Evaluating the level-transition trigger when the threshold is met
above level 1: level decremented, order reshuffled, indices reset. -/
theorem processNextTurnAux_transition (now : Int) (room : Room)
    (st : GameState) (fuel : Nat) (rand : List Nat)
    (hcnt : st.questionCount ≥ room.settings.questionsPerLevel.getD 3)
    (hgt : st.currentLevel > 1)
    (hqpl : 0 < room.settings.questionsPerLevel.getD 3) :
    processNextTurnAux now room (fuel + 1) rand st =
      { room with state := some (set_turn_started_at now st
        { st with
          currentLevel := st.currentLevel - 1
          questionCount := 0
          playerOrder := shuffle_player_ids rand
            (room.players.map (·.playerId))
          currentAskerIndex := 0
          currentAnswererIndex := 1
          currentQuestion := none
          isCustomQuestion := false }) } := by
  simp only [processNextTurnAux]
  rw [if_pos hcnt, if_pos hgt]
  exact processNextTurnAux_noop now room _
    (by simp only [sts_count]; omega) fuel _

/-- Evaluating the level-transition trigger when the threshold is met
at level 1 (or below): the room is finished, the state untouched. -/
theorem processNextTurnAux_finish (now : Int) (room : Room)
    (st : GameState) (fuel : Nat) (rand : List Nat)
    (hcnt : st.questionCount ≥ room.settings.questionsPerLevel.getD 3)
    (hle : ¬ st.currentLevel > 1) :
    processNextTurnAux now room (fuel + 1) rand st =
      { room with status := .finished, state := some st } := by
  simp only [processNextTurnAux]
  rw [if_pos hcnt, if_neg hle]

/-- One scripted turn of a two-player game with `questionsPerLevel = 2`:
the answerer's `advance_turn` succeeds; with a fresh count it just
increments, with count 1 it completes the level — decrementing above
level 1 and finishing the game at level 1. -/
theorem twoPlayerStep (now : Int) (rand : List Nat) (q : String)
    (r : Room) (lvl cnt : Int)
    (hinv : TwoPlayerInv r lvl cnt) (hL : 1 ≤ lvl) :
    ∃ r', autoStep now rand q r = .ok r' ∧
      (cnt = 0 → TwoPlayerInv r' lvl 1) ∧
      (cnt = 1 →
        (1 < lvl → TwoPlayerInv r' (lvl - 1) 0) ∧
        (lvl = 1 → r'.status = .finished)) := by
  obtain ⟨hplay, hqpl, hplen, st, hst, hlv, hcount, holen, haidx⟩ := hinv
  have hidx2 : st.currentAnswererIndex < st.playerOrder.length := by omega
  obtain ⟨v, hv⟩ : ∃ v,
      st.playerOrder[st.currentAnswererIndex]? = some v := by
    rw [List.getElem?_eq_getElem hidx2]
    exact ⟨_, rfl⟩
  have hguard : idGuardFails st.playerOrder st.currentAnswererIndex
      (st.playerOrder[st.currentAnswererIndex]?.getD "") = false := by
    unfold idGuardFails
    rw [hv]
    simp [hv]
  have hqpl3 : r.settings.questionsPerLevel.getD 3 = 2 := by
    rw [hqpl]
    rfl
  simp only [autoStep, advance_turn, hst, List.getD]
  rw [if_neg (by simp [hguard]), if_neg (by omega),
    if_neg (by simp [hplay])]
  refine ⟨_, rfl, ?_, ?_⟩
  · intro hc0
    rw [processNextTurnAux_noop now r _ (by
      simp only [sts_count]
      rw [hqpl3]
      omega)]
    refine ⟨hplay, hqpl, hplen, _, rfl, ?_, ?_, ?_, ?_⟩
    · simp only [sts_level]
      omega
    · simp only [sts_count]
      omega
    · simp only [sts_playerOrder]
      exact holen
    · simp only [sts_answerer]
      rw [holen]
      exact Nat.mod_lt _ (by omega)
  · intro hc1
    obtain ⟨m, hm⟩ : ∃ m, st.currentLevel.toNat + 1 = m + 2 :=
      ⟨st.currentLevel.toNat - 1, by omega⟩
    constructor
    · intro hgt
      rw [hm, processNextTurnAux_transition now r _ (m + 1) rand
        (by simp only [sts_count]; rw [hqpl3]; omega)
        (by simp only [sts_level]; omega)
        (by rw [hqpl3]; omega)]
      refine ⟨hplay, hqpl, hplen, _, rfl, ?_, ?_, ?_, ?_⟩
      · simp only [sts_level]
        omega
      · simp only [sts_count]
      · simp only [sts_playerOrder]
        rw [shuffle_length, List.length_map]
        exact hplen
      · simp only [sts_answerer]
        omega
    · intro hl1
      rw [hm, processNextTurnAux_finish now r _ (m + 1) rand
        (by simp only [sts_count]; rw [hqpl3]; omega)
        (by simp only [sts_level]; omega)]

/-- C4: a game started with 2 players at startLevel 5 (so
`questionsPerLevel` is overwritten with the roster size 2) reaches
status Finished after exactly `questionsPerLevel × 5 = 10` successful
`advance_turn` calls by the respective answerers — each one succeeds —
and after no smaller number: the room is still Playing before each of
the first 10 calls. -/
theorem two_player_termination (now : Int) (rand0 : List Nat)
    (rands : Nat → List Nat) (qs : Nat → String) (room r0 : Room)
    (hplen : room.players.length = 2)
    (hstart5 : room.settings.startLevel = some 5)
    (h0 : start_game now rand0 room room.hostId = .ok r0) :
    (∀ k, k < 10 →
      (runAuto now rands qs r0 k).status = .playing ∧
      ∃ r', autoStep now (rands k) (qs k) (runAuto now rands qs r0 k) =
        .ok r') ∧
    (runAuto now rands qs r0 10).status = .finished := by
  have hbase : TwoPlayerInv r0 5 0 := by
    cases hrs : room.state with
    | none =>
      simp only [start_game, hrs] at h0
      split at h0
      · exact absurd h0 (by simp)
      · split at h0
        · exact absurd h0 (by simp)
        · split at h0
          · exact absurd h0 (by simp)
          · simp only [Res.ok.injEq] at h0
            subst h0
            refine ⟨rfl, ?_, hplen, _, rfl, ?_, rfl, ?_, ?_⟩
            · show some ((room.players.length : Nat) : Int) = some 2
              rw [hplen]
              rfl
            · show room.settings.startLevel.getD 5 = 5
              rw [hstart5]
              rfl
            · show (shuffle_player_ids rand0
                (room.players.map (·.playerId))).length = 2
              rw [shuffle_length, List.length_map]
              exact hplen
            · show (1 : Nat) < 2
              omega
    | some old =>
      simp only [start_game, hrs] at h0
      split at h0
      · exact absurd h0 (by simp)
      · split at h0
        · exact absurd h0 (by simp)
        · split at h0
          · exact absurd h0 (by simp)
          · simp only [Res.ok.injEq] at h0
            subst h0
            refine ⟨rfl, ?_, hplen, _, rfl, ?_, ?_, ?_, ?_⟩
            · show some ((room.players.length : Nat) : Int) = some 2
              rw [hplen]
              rfl
            · simp only [sts_level]
              show room.settings.startLevel.getD 5 = 5
              rw [hstart5]
              rfl
            · simp only [sts_count]
            · simp only [sts_playerOrder]
              show (shuffle_player_ids rand0
                (room.players.map (·.playerId))).length = 2
              rw [shuffle_length, List.length_map]
              exact hplen
            · simp only [sts_answerer]
              show (1 : Nat) < 2
              omega
  have main : ∀ k, k ≤ 9 →
      TwoPlayerInv (runAuto now rands qs r0 k)
        (5 - ((k / 2 : Nat) : Int)) (((k % 2 : Nat) : Int)) := by
    intro k
    induction k with
    | zero =>
      intro _
      simpa [runAuto] using hbase
    | succ k ih =>
      intro hk9
      have hInv := ih (by omega)
      have hL : (1 : Int) ≤ 5 - ((k / 2 : Nat) : Int) := by omega
      obtain ⟨r', hok, hs0, hs1⟩ :=
        twoPlayerStep now (rands k) (qs k) _ _ _ hInv hL
      have hrun : runAuto now rands qs r0 (k + 1) = r' := by
        simp only [runAuto]
        rw [hok]
      rw [hrun]
      rcases Nat.mod_two_eq_zero_or_one k with hpar | hpar
      · have h1 : (k + 1) / 2 = k / 2 := by omega
        have h2 : (k + 1) % 2 = 1 := by omega
        rw [h1, h2]
        have hiv := hs0 (by simp [hpar])
        simpa using hiv
      · have h1 : (k + 1) / 2 = k / 2 + 1 := by omega
        have h2 : (k + 1) % 2 = 0 := by omega
        rw [h1, h2]
        have hgt : (1 : Int) < 5 - ((k / 2 : Nat) : Int) := by omega
        have hiv := (hs1 (by simp [hpar])).1 hgt
        have harith : (5 - ((k / 2 : Nat) : Int)) - 1 =
            5 - (((k / 2 + 1 : Nat)) : Int) := by push_cast; omega
        rw [harith] at hiv
        simpa using hiv
  refine ⟨?_, ?_⟩
  · intro k hk
    have hInv := main k (by omega)
    have hL : (1 : Int) ≤ 5 - ((k / 2 : Nat) : Int) := by omega
    obtain ⟨r', hok, _, _⟩ :=
      twoPlayerStep now (rands k) (qs k) _ _ _ hInv hL
    exact ⟨hInv.1, r', hok⟩
  · have hInv := main 9 (by omega)
    have hL : (1 : Int) ≤ 5 - ((9 / 2 : Nat) : Int) := by omega
    obtain ⟨r', hok, _, hs1⟩ :=
      twoPlayerStep now (rands 9) (qs 9) _ _ _ hInv hL
    have hfin := (hs1 (by decide)).2 (by decide)
    have hrun : runAuto now rands qs r0 10 = r' := by
      have hstep : runAuto now rands qs r0 10 =
          (match autoStep now (rands 9) (qs 9)
              (runAuto now rands qs r0 9) with
            | Res.ok r2 => r2
            | Res.err _ => runAuto now rands qs r0 9) := rfl
      rw [hstep, hok]
    rw [hrun]
    exact hfin

/-- C4 witnessed on a concrete two-player game: not finished after 9
turns, finished after the 10th. -/
theorem two_player_termination_witness :
    ((runAuto 100 (fun _ => [0]) (fun k => toString k)
      startedFixture 9).status = .playing ∧
      (runAuto 100 (fun _ => [0]) (fun k => toString k)
        startedFixture 10).status = .finished) := by
  have h := two_player_termination 100 [0] (fun _ => [0])
    (fun k => toString k) lobbyFixture startedFixture (by decide)
    (by decide) (by decide)
  exact ⟨(h.1 9 (by omega)).1, h.2⟩

end LOI
